import Mathlib

/-!
Shallow embedding of the pswmeter password-strength analyzer (src/psw.js).

Strings are modelled as Lean `String`s (lists of characters); JS numbers
that hold scores are modelled as `Int` (the Comprehensive8 score can go
negative), character counts as `Nat`.  The `undefined`/`null` input that
`calcScore` guards against is modelled by `Option String` with `none`.
The word list held in the `Psw` object's state is passed explicitly as a
`List String` parameter.

The Unicode character-category tests `\p{Lu}` / `\p{Ll}` used by
`isUpper` / `isLower` (and JS `toLowerCase`) are embedded faithfully on
the Latin-1 range (code points up to 0xFF), which contains every
character of the literal symbol set, every ASCII digit and every
character exercised by the analysis below.
-/

/-- `\p{Lu}` (uppercase letter) restricted to Latin-1: `A`–`Z` and
`À`–`Þ` except the multiplication sign `×`. -/
def isUpper (c : Char) : Bool :=
  ('A' ≤ c && c ≤ 'Z') || (0xC0 ≤ c.toNat && c.toNat ≤ 0xDE && c.toNat ≠ 0xD7)

/-- `\p{Ll}` (lowercase letter) restricted to Latin-1: `a`–`z`, micro
sign `µ`, and `ß`–`ÿ` except the division sign `÷`. -/
def isLower (c : Char) : Bool :=
  ('a' ≤ c && c ≤ 'z') || c.toNat == 0xB5 ||
    (0xDF ≤ c.toNat && c.toNat ≤ 0xFF && c.toNat ≠ 0xF7)

/-- The regex `/^\d$/`: a single ASCII decimal digit. -/
def isDigit (c : Char) : Bool :=
  '0' ≤ c && c ≤ '9'

/-- The literal character class of the symbol regex
`/^[!=\?\"\'#%\$§\/\\\(\)\[\]{}+\-\.,;:_<>\*`´\^~|]$/`, character for
character. -/
def symbolChars : List Char :=
  ['!', '=', '?', '"', '\'', '#', '%', '$', '§', '/', '\\', '(', ')',
   '[', ']', '{', '}', '+', '-', '.', ',', ';', ':', '_', '<', '>',
   '*', '`', '´', '^', '~', '|']

/-- `Psw.prototype.isSymbol`: membership in the fixed enumerated set. -/
def isSymbol (c : Char) : Bool :=
  symbolChars.contains c

/-- JS `String.prototype.toLowerCase` on one character, restricted to
Latin-1: `A`–`Z` and `À`–`Þ` (except `×`) map 32 code points up, all
other Latin-1 characters are unchanged. -/
def charToLower (c : Char) : Char :=
  if 'A' ≤ c && c ≤ 'Z' then Char.ofNat (c.toNat + 32)
  else if 0xC0 ≤ c.toNat && c.toNat ≤ 0xDE && c.toNat ≠ 0xD7 then
    Char.ofNat (c.toNat + 32)
  else c

/-- JS `text.toLowerCase()` on the whole string. -/
def toLowerString (text : String) : String :=
  text.map charToLower

/-- `Psw.prototype.countCmp`: split the text into characters, when
`unique` sort them and drop duplicate values (`$.unique` on a sorted
array), then count the characters accepted by `cmp`. -/
def countCmp (text : String) (cmp : Char → Bool) (unique : Bool) : Nat :=
  let txt := text.data
  let txt := if unique then (txt.mergeSort (fun a b => a ≤ b)).dedup else txt
  txt.countP cmp

/-- `Psw.prototype.checkWordList`: true iff `text.toLowerCase()` does
not occur in the word list (`indexOf == -1`). -/
def checkWordList (wordlist : List String) (text : String) : Bool :=
  !(wordlist.contains (toLowerString text))

/-- The inner function `unqPoints` of `calcComp8`:
`(num >= 1 ? 17 : 0) + (num >= 2 ? 8 : 0) + (num >= 3 ? 4 : 0)`. -/
def unqPoints (num : Nat) : Int :=
  (if num ≥ 1 then 17 else 0) + (if num ≥ 2 then 8 else 0) +
    (if num ≥ 3 then 4 else 0)

/-- `Psw.prototype.calcBasic16`. -/
def calcBasic16 (text : String) : Int :=
  let len : Int := text.length
  let score := min len 7 * 4
  if len > 7 then score + (len - 7) * 8 else score

/-- `Psw.prototype.calcComp8`, with the object's word list passed
explicitly. -/
def calcComp8 (wordlist : List String) (text : String) : Int :=
  let len : Int := text.length
  let upsq := countCmp text isUpper true
  let digsq := countCmp text isDigit true
  let symsq := countCmp text isSymbol true
  let los := countCmp text isLower false
  let score := len * 4
  let score := score + unqPoints upsq + unqPoints digsq + unqPoints symsq
  let score := if los == 0 then score - 17 else score
  let score := if checkWordList wordlist text then score + 17 else score
  score

/-- `Psw.prototype.calcScore`; `none` models `undefined`/`null`. -/
def calcScore (wordlist : List String) (text : Option String) : Int :=
  match text with
  | none => 0
  | some t => if t.length == 0 then 0 else
      max (calcBasic16 t) (calcComp8 wordlist t)

/-- `Psw.prototype.scoreMeaning`: the eight score bands. -/
def scoreMeaning (score : Int) : String × String :=
  if score > 0 && score ≤ 16 then ("Dreadful", "#FF0000")
  else if score > 16 && score ≤ 33 then ("Bad", "#FF6600")
  else if score > 33 && score ≤ 50 then ("Poor", "#FF9900")
  else if score > 50 && score ≤ 67 then ("Fair", "#FFCC00")
  else if score > 67 && score ≤ 84 then ("Good", "#FFFF00")
  else if score > 84 && score ≤ 99 then ("Great", "#CCFF00")
  else if score > 99 && score ≤ 115 then ("Excellent", "#99FF00")
  else if score > 115 then ("Fantastic", "#00FF00")
  else ("", "")

/-- The record returned by `analyze`. -/
structure AnalysisResult where
  score : Int
  meaning : String
  color : String
deriving DecidableEq, Repr

/-- `Psw.prototype.analyze`. -/
def analyze (wordlist : List String) (text : Option String) :
    AnalysisResult :=
  let score := calcScore wordlist text
  let meaning := scoreMeaning score
  { score := score, meaning := meaning.1, color := meaning.2 }

/-- The number of distinct characters of the text accepted by `cmp`
(deduplicated by exact character value). -/
def distinctCount (text : String) (cmp : Char → Bool) : Nat :=
  text.data.dedup.countP cmp

/-! ### Helper lemmas -/

/-- Sorting before deduplicating does not change which distinct
character values are counted: the `unique` mode of `countCmp` counts
the distinct characters of the text accepted by `cmp`. -/
theorem countCmp_unique_eq (text : String) (cmp : Char → Bool) :
    countCmp text cmp true = distinctCount text cmp := by
  unfold countCmp distinctCount
  simp only [if_pos]
  exact ((List.mergeSort_perm text.data (fun a b => a ≤ b)).dedup).countP_eq cmp

/-- The boolean `if` chain of `scoreMeaning`, restated with
propositional conditions. -/
theorem scoreMeaning_eq (s : Int) : scoreMeaning s =
    if 0 < s ∧ s ≤ 16 then ("Dreadful", "#FF0000")
    else if 16 < s ∧ s ≤ 33 then ("Bad", "#FF6600")
    else if 33 < s ∧ s ≤ 50 then ("Poor", "#FF9900")
    else if 50 < s ∧ s ≤ 67 then ("Fair", "#FFCC00")
    else if 67 < s ∧ s ≤ 84 then ("Good", "#FFFF00")
    else if 84 < s ∧ s ≤ 99 then ("Great", "#CCFF00")
    else if 99 < s ∧ s ≤ 115 then ("Excellent", "#99FF00")
    else if 115 < s then ("Fantastic", "#00FF00")
    else ("", "") := by
  unfold scoreMeaning
  simp only [gt_iff_lt, Bool.and_eq_true, decide_eq_true_eq]

/-- A non-empty string has positive length. -/
theorem length_pos_of_ne (text : String) (h : text ≠ "") :
    0 < text.length := by
  rcases text with ⟨l⟩
  cases l with
  | nil => exact absurd rfl h
  | cons a l => simp [String.length]

/-! ### Claims -/

/-- C1: `calcScore` returns 0 on `undefined`/`null` and on the empty
string, and on every non-empty text it equals the maximum of
`calcBasic16` and `calcComp8`. -/
theorem calcScore_eq_max (wordlist : List String) (text : String) :
    calcScore wordlist none = 0 ∧ calcScore wordlist (some "") = 0 ∧
    (text ≠ "" → calcScore wordlist (some text) =
      max (calcBasic16 text) (calcComp8 wordlist text)) := by
  refine ⟨rfl, rfl, fun h => ?_⟩
  have hlen : (text.length == 0) = false := by
    simp only [beq_eq_false_iff_ne, ne_eq]
    exact Nat.pos_iff_ne_zero.mp (length_pos_of_ne text h)
  simp [calcScore, hlen]

/-- Witness for C1 at the one-character text "a". -/
theorem calcScore_eq_max_witness :
    calcScore [] (some "a") = max (calcBasic16 "a") (calcComp8 [] "a") :=
  (calcScore_eq_max [] "a").2.2 (by decide)

/-- C2: for `undefined`/`null` input and for the empty string,
`calcScore` returns exactly 0 and `analyze` returns the record with
score 0, meaning "" and color "", as a normal return. -/
theorem analyze_empty (wordlist : List String) :
    calcScore wordlist none = 0 ∧ calcScore wordlist (some "") = 0 ∧
    analyze wordlist none = ⟨0, "", ""⟩ ∧
    analyze wordlist (some "") = ⟨0, "", ""⟩ :=
  ⟨rfl, rfl, rfl, rfl⟩

/-- C4: `calcBasic16` equals `min(len,7)*4 + max(0,len-7)*8`, and a
7-character string scores 28, an 8-character string 36, a 16-character
string exactly 100. -/
theorem calcBasic16_formula (text : String) :
    calcBasic16 text = min ((text.length : Int)) 7 * 4 +
      max 0 ((text.length : Int) - 7) * 8 ∧
    calcBasic16 "abcdefg" = 28 ∧ calcBasic16 "abcdefgh" = 36 ∧
    calcBasic16 "abcdefghijklmnop" = 100 := by
  refine ⟨?_, by decide, by decide, by decide⟩
  unfold calcBasic16
  have h0 : (0 : Int) ≤ (text.length : Int) := Int.natCast_nonneg _
  dsimp only
  split <;> omega

/-- C3: `scoreMeaning` maps every integer score by the fixed bands
(lower bound exclusive, upper bound inclusive): 1-16 Dreadful, 17-33
Bad, 34-50 Poor, 51-67 Fair, 68-84 Good, 85-99 Great, 100-115
Excellent, 116+ Fantastic; scores at 16, 17, 100, 116 fall as listed
and every score at most 0 gives the sentinel ("", ""). -/
theorem scoreMeaning_bands (s : Int) :
    (0 < s ∧ s ≤ 16 → scoreMeaning s = ("Dreadful", "#FF0000")) ∧
    (16 < s ∧ s ≤ 33 → scoreMeaning s = ("Bad", "#FF6600")) ∧
    (33 < s ∧ s ≤ 50 → scoreMeaning s = ("Poor", "#FF9900")) ∧
    (50 < s ∧ s ≤ 67 → scoreMeaning s = ("Fair", "#FFCC00")) ∧
    (67 < s ∧ s ≤ 84 → scoreMeaning s = ("Good", "#FFFF00")) ∧
    (84 < s ∧ s ≤ 99 → scoreMeaning s = ("Great", "#CCFF00")) ∧
    (99 < s ∧ s ≤ 115 → scoreMeaning s = ("Excellent", "#99FF00")) ∧
    (115 < s → scoreMeaning s = ("Fantastic", "#00FF00")) ∧
    (s ≤ 0 → scoreMeaning s = ("", "")) ∧
    scoreMeaning 16 = ("Dreadful", "#FF0000") ∧
    scoreMeaning 17 = ("Bad", "#FF6600") ∧
    scoreMeaning 100 = ("Excellent", "#99FF00") ∧
    scoreMeaning 116 = ("Fantastic", "#00FF00") ∧
    scoreMeaning 0 = ("", "") ∧ scoreMeaning (-5) = ("", "") := by
  refine ⟨?_, ?_, ?_, ?_, ?_, ?_, ?_, ?_, ?_,
    by decide, by decide, by decide, by decide, by decide, by decide⟩ <;>
    intro h <;> rw [scoreMeaning_eq] <;> split_ifs <;>
    first | rfl | omega

/-- Witness for C3 at score 10 (the Dreadful band). -/
theorem scoreMeaning_bands_witness :
    scoreMeaning 10 = ("Dreadful", "#FF0000") :=
  (scoreMeaning_bands 10).1 (by decide)

/-- The score accumulated by `calcComp8` just before its final
dictionary step (base, class bonuses and lowercase penalty). -/
def comp8PreDict (text : String) : Int :=
  let len : Int := text.length
  let upsq := countCmp text isUpper true
  let digsq := countCmp text isDigit true
  let symsq := countCmp text isSymbol true
  let los := countCmp text isLower false
  let score := len * 4
  let score := score + unqPoints upsq + unqPoints digsq + unqPoints symsq
  let score := if los == 0 then score - 17 else score
  score

/-- Flattened form of `calcComp8`: base score, one `unqPoints` bonus
per class of distinct characters, the lowercase penalty and the
dictionary bonus. -/
theorem calcComp8_eq (wordlist : List String) (text : String) :
    calcComp8 wordlist text =
      (text.length : Int) * 4 + unqPoints (distinctCount text isUpper) +
      unqPoints (distinctCount text isDigit) +
      unqPoints (distinctCount text isSymbol) -
      (if countCmp text isLower false = 0 then 17 else 0) +
      (if checkWordList wordlist text then 17 else 0) := by
  unfold calcComp8
  dsimp only
  simp only [countCmp_unique_eq, beq_iff_eq]
  split_ifs <;> ring

/-- `calcComp8` is `comp8PreDict` plus the dictionary step. -/
theorem calcComp8_dict_split (wordlist : List String) (text : String) :
    calcComp8 wordlist text =
      comp8PreDict text + (if checkWordList wordlist text then 17 else 0) := by
  unfold calcComp8 comp8PreDict
  dsimp only
  split_ifs <;> ring

/-- C5: each class bonus of `calcComp8` is `unqPoints` of the number
of distinct characters of that class (deduplicated by exact character
value), and `unqPoints` satisfies the staircase 0, 17, 25, 29, is
monotone, and never exceeds 29. -/
theorem calcComp8_unqPoints (wordlist : List String) (text : String)
    (m n : Nat) :
    calcComp8 wordlist text =
      (text.length : Int) * 4 + unqPoints (distinctCount text isUpper) +
      unqPoints (distinctCount text isDigit) +
      unqPoints (distinctCount text isSymbol) -
      (if countCmp text isLower false = 0 then 17 else 0) +
      (if checkWordList wordlist text then 17 else 0) ∧
    unqPoints 0 = 0 ∧ unqPoints 1 = 17 ∧ unqPoints 2 = 25 ∧
    (3 ≤ n → unqPoints n = 29) ∧
    (m ≤ n → unqPoints m ≤ unqPoints n) ∧
    unqPoints n ≤ 29 := by
  refine ⟨calcComp8_eq wordlist text, by decide, by decide, by decide,
    fun h => ?_, fun h => ?_, ?_⟩ <;>
    unfold unqPoints <;> split_ifs <;> omega

/-- Witness for C5 at `n = 3`, `m = 1`. -/
theorem calcComp8_unqPoints_witness :
    unqPoints 3 = 29 ∧ unqPoints 1 ≤ unqPoints 3 :=
  ⟨(calcComp8_unqPoints [] "x" 1 3).2.2.2.2.1 (by decide),
   (calcComp8_unqPoints [] "x" 1 3).2.2.2.2.2.1 (by decide)⟩

/-- C6: `calcComp8` adds exactly 17 points iff the lowercased text is
absent from the word list (a found text gets neither bonus nor
penalty from this step), and with an empty (not yet loaded) word list
every text behaves as not found and receives the bonus. -/
theorem checkWordList_bonus (wordlist : List String) (text : String) :
    (checkWordList wordlist text = true ↔ toLowerString text ∉ wordlist) ∧
    calcComp8 wordlist text =
      comp8PreDict text +
        (if toLowerString text ∈ wordlist then 0 else 17) ∧
    checkWordList [] text = true ∧
    calcComp8 [] text = comp8PreDict text + 17 := by
  have hiff : checkWordList wordlist text = true ↔
      toLowerString text ∉ wordlist := by
    simp [checkWordList]
  have hnil : checkWordList [] text = true := by
    simp [checkWordList]
  refine ⟨hiff, ?_, hnil, ?_⟩
  · rw [calcComp8_dict_split]
    by_cases hmem : toLowerString text ∈ wordlist
    · rw [if_pos hmem, if_neg, add_zero]
      exact fun hc => (hiff.mp hc) hmem
    · rw [if_neg hmem, if_pos (hiff.mpr hmem)]
  · rw [calcComp8_dict_split, if_pos hnil]

/-- C8: `calcComp8` subtracts 17 points exactly when the total
(non-unique) count of lowercase characters is 0; a text containing at
least one lowercase character never receives the penalty. -/
theorem comp8_lower_penalty (wordlist : List String) (text : String) :
    calcComp8 wordlist text =
      ((text.length : Int) * 4 + unqPoints (distinctCount text isUpper) +
        unqPoints (distinctCount text isDigit) +
        unqPoints (distinctCount text isSymbol) +
        (if checkWordList wordlist text then 17 else 0)) -
      (if countCmp text isLower false = 0 then 17 else 0) ∧
    ((∃ c ∈ text.data, isLower c = true) →
      countCmp text isLower false ≠ 0 ∧
      calcComp8 wordlist text =
        (text.length : Int) * 4 + unqPoints (distinctCount text isUpper) +
        unqPoints (distinctCount text isDigit) +
        unqPoints (distinctCount text isSymbol) +
        (if checkWordList wordlist text then 17 else 0)) := by
  have hflat := calcComp8_eq wordlist text
  constructor
  · rw [hflat]; ring
  · rintro ⟨c, hc, hl⟩
    have hne : countCmp text isLower false ≠ 0 := by
      have hc0 : countCmp text isLower false = text.data.countP isLower := rfl
      rw [hc0, Ne, List.countP_eq_zero]
      exact fun hall => (hall c hc) hl
    refine ⟨hne, ?_⟩
    rw [hflat, if_neg hne]
    ring

/-- Witness for C8 at the text "a" (one lowercase character). -/
theorem comp8_lower_penalty_witness :
    countCmp "a" isLower false ≠ 0 ∧
    calcComp8 [] "a" =
      (("a" : String).length : Int) * 4 + unqPoints (distinctCount "a" isUpper) +
      unqPoints (distinctCount "a" isDigit) +
      unqPoints (distinctCount "a" isSymbol) +
      (if checkWordList [] "a" then 17 else 0) :=
  (comp8_lower_penalty [] "a").2 ⟨'a', by decide, by decide⟩

/-- Evaluation form of `calcScore` on a present text: the mergeSort
inside `countCmp` is replaced by the kernel-reducible distinct count. -/
theorem calcScore_some (wordlist : List String) (t : String) :
    calcScore wordlist (some t) =
      if t.length = 0 then 0 else
        max (calcBasic16 t)
          ((t.length : Int) * 4 + unqPoints (distinctCount t isUpper) +
            unqPoints (distinctCount t isDigit) +
            unqPoints (distinctCount t isSymbol) -
            (if countCmp t isLower false = 0 then 17 else 0) +
            (if checkWordList wordlist t then 17 else 0)) := by
  unfold calcScore
  rw [← calcComp8_eq]
  simp only [beq_iff_eq]

/-- The `meaning` field of `analyze` is the first component of
`scoreMeaning` of the score. -/
theorem analyze_meaning (wordlist : List String) (text : Option String) :
    (analyze wordlist text).meaning =
      (scoreMeaning (calcScore wordlist text)).1 ∧
    (analyze wordlist text).color =
      (scoreMeaning (calcScore wordlist text)).2 :=
  ⟨rfl, rfl⟩

/-- C7 counterexample: for the all-lowercase text "abcdefg" absent
from the word list, `calcComp8` gives 45 (= 7*4 + 17), not 7*4 = 28;
the combined score is 45 and the meaning is "Poor", not "Bad". -/
theorem comp8_alllower_counterexample :
    calcComp8 [] "abcdefg" ≠ (("abcdefg" : String).length : Int) * 4 ∧
    calcComp8 [] "abcdefg" = 45 ∧
    calcScore [] (some "abcdefg") = 45 ∧
    (analyze [] (some "abcdefg")).meaning = "Poor" ∧
    (analyze [] (some "abcdefg")).meaning ≠ "Bad" := by
  have h1 : calcComp8 [] "abcdefg" = 45 := by
    rw [calcComp8_eq]; decide
  have h2 : calcScore [] (some "abcdefg") = 45 := by
    rw [calcScore_some]
    rw [show ((45 : Int) = max (calcBasic16 "abcdefg") 45) by decide]
    decide
  have h3 : (analyze [] (some "abcdefg")).meaning =
      (scoreMeaning (calcScore [] (some "abcdefg"))).1 := rfl
  refine ⟨by rw [h1]; decide, h1, h2, ?_, ?_⟩ <;> rw [h3, h2] <;> decide

/-- C7 amended: for every non-empty all-lowercase text (no uppercase,
digit or symbol characters) whose lowercased form is not in the word
list, `calcComp8` gives `len*4 + 17` (the lowercase penalty does not
apply, the dictionary bonus does); for "abcdefg" the score is 45 and
the meaning "Poor". -/
theorem comp8_alllower_amended (wordlist : List String) (text : String) :
    text ≠ "" →
    (∀ c ∈ text.data, isLower c = true ∧ isUpper c = false ∧
      isDigit c = false ∧ isSymbol c = false) →
    toLowerString text ∉ wordlist →
    calcComp8 wordlist text = (text.length : Int) * 4 + 17 ∧
    calcComp8 [] "abcdefg" = 45 ∧ calcScore [] (some "abcdefg") = 45 ∧
    (analyze [] (some "abcdefg")).meaning = "Poor" := by
  intro hne hcls hnw
  have h1 : calcComp8 [] "abcdefg" = 45 := by
    rw [calcComp8_eq]; decide
  have h2 : calcScore [] (some "abcdefg") = 45 := by
    rw [calcScore_some]
    rw [show ((45 : Int) = max (calcBasic16 "abcdefg") 45) by decide]
    decide
  have h3 : (analyze [] (some "abcdefg")).meaning =
      (scoreMeaning (calcScore [] (some "abcdefg"))).1 := rfl
  refine ⟨?_, h1, h2, by rw [h3, h2]; decide⟩
  rw [calcComp8_eq]
  have hup : distinctCount text isUpper = 0 := by
    unfold distinctCount
    rw [List.countP_eq_zero]
    intro a ha
    simp [(hcls a (List.mem_dedup.mp ha)).2.1]
  have hdig : distinctCount text isDigit = 0 := by
    unfold distinctCount
    rw [List.countP_eq_zero]
    intro a ha
    simp [(hcls a (List.mem_dedup.mp ha)).2.2.1]
  have hsym : distinctCount text isSymbol = 0 := by
    unfold distinctCount
    rw [List.countP_eq_zero]
    intro a ha
    simp [(hcls a (List.mem_dedup.mp ha)).2.2.2]
  have hlos : countCmp text isLower false ≠ 0 := by
    have hc0 : countCmp text isLower false = text.data.countP isLower := rfl
    have hall : text.data.countP isLower = text.data.length :=
      List.countP_eq_length.mpr fun a ha => (hcls a ha).1
    rw [hc0, hall]
    have := length_pos_of_ne text hne
    simp only [String.length] at this
    omega
  have hwl : checkWordList wordlist text = true := by
    simp [checkWordList, hnw]
  rw [hup, hdig, hsym, if_neg hlos, if_pos hwl]
  simp [unqPoints]

/-- Witness for the amended C7 at the text "abcdefg". -/
theorem comp8_alllower_amended_witness :
    calcComp8 [] "abcdefg" = (("abcdefg" : String).length : Int) * 4 + 17 :=
  (comp8_alllower_amended [] "abcdefg" (by decide) (by decide)
    (by decide)).1

/-- C9: `isSymbol` accepts exactly the characters of the fixed
enumerated set and rejects every letter and every digit. -/
theorem isSymbol_exact (c : Char) :
    (∀ d ∈ symbolChars, isSymbol d = true) ∧
    (isSymbol c = true ↔ c ∈ symbolChars) ∧
    ((isUpper c = true ∨ isLower c = true ∨ isDigit c = true) →
      isSymbol c = false) := by
  have hmemiff : isSymbol c = true ↔ c ∈ symbolChars := by
    simp [isSymbol]
  refine ⟨by decide, hmemiff, fun h => ?_⟩
  cases hs : isSymbol c
  · rfl
  · exfalso
    have hmem : c ∈ symbolChars := hmemiff.mp hs
    fin_cases hmem <;> revert h <;> decide

/-- Witness for C9 at the uppercase letter 'A'. -/
theorem isSymbol_exact_witness : isSymbol 'A' = false :=
  (isSymbol_exact 'A').2.2 (Or.inl (by decide))

/-- C10: every non-empty text scores at least 4 under any word list
(Basic16 alone gives at least 4 and `calcScore` takes the maximum),
so `analyze` never returns the sentinel meaning/color on a non-empty
text: the meaning is always one of the eight named bands. -/
theorem calcScore_pos (wordlist : List String) (text : String) :
    text ≠ "" →
    4 ≤ calcBasic16 text ∧
    4 ≤ calcScore wordlist (some text) ∧
    (analyze wordlist (some text)).meaning ≠ "" ∧
    (analyze wordlist (some text)).color ≠ "" ∧
    (analyze wordlist (some text)).meaning ∈
      (["Dreadful", "Bad", "Poor", "Fair", "Good", "Great", "Excellent",
        "Fantastic"] : List String) := by
  intro h
  have hlen : 0 < text.length := length_pos_of_ne text h
  have hb : 4 ≤ calcBasic16 text := by
    unfold calcBasic16
    dsimp only
    have h1 : (1 : Int) ≤ (text.length : Int) := by exact_mod_cast hlen
    split <;> omega
  have hs : 4 ≤ calcScore wordlist (some text) := by
    have hlen0 : (text.length == 0) = false := by
      simp only [beq_eq_false_iff_ne, ne_eq]
      omega
    simp only [calcScore, hlen0, Bool.false_eq_true, if_false]
    exact le_trans hb (le_max_left _ _)
  have hm : (analyze wordlist (some text)).meaning =
      (scoreMeaning (calcScore wordlist (some text))).1 := rfl
  have hc : (analyze wordlist (some text)).color =
      (scoreMeaning (calcScore wordlist (some text))).2 := rfl
  refine ⟨hb, hs, ?_, ?_, ?_⟩
  · rw [hm, scoreMeaning_eq]
    split_ifs <;> first | decide | omega
  · rw [hc, scoreMeaning_eq]
    split_ifs <;> first | decide | omega
  · rw [hm, scoreMeaning_eq]
    split_ifs <;> first | decide | omega

/-- Witness for C10 at the text "a". -/
theorem calcScore_pos_witness :
    4 ≤ calcScore [] (some "a") ∧ (analyze [] (some "a")).meaning ≠ "" :=
  ⟨(calcScore_pos [] "a" (by decide)).2.1,
   (calcScore_pos [] "a" (by decide)).2.2.1⟩
